import Mathlib

/-!
Verification of the composer training-loop orchestrator.

Shallow embedding of `src/composer/trainer/trainer.py` (the `Trainer`
class): the construction-time configuration checks, the `fit` training
loop with its epoch-boundary / mid-epoch-resume logic and the
`BreakEpochException` handler, the per-batch inner routine
`_train_batch_inner` (microbatch splitting, loss weighting, zero_grad),
the `eval` routine, and the pure decision functions
`_use_grad_scaling` / `find_unused_parameters` / ddp sync-strategy
selection.  Machine floats are modelled by `ℚ`; Python ints by `Int`/`Nat`;
raised exceptions by `Except` / explicit outcome values.
-/

namespace Composer

/-- Numeric precision modes, `Precision.FP32` / `FP16` / `AMP` as referenced
throughout `trainer.py` (the enum itself lives in `composer/core/types.py`;
the closed set full / half / auto-mixed of the spec). -/
inductive Precision where
  | FP32
  | FP16
  | AMP
deriving DecidableEq, Repr

/-- The state of a torch `GradScaler` that matters to the trainer:
whether `is_enabled()` returns true (false on unsupported hardware). -/
structure GradScalerState where
  enabled : Bool
deriving DecidableEq, Repr

/-- Life-cycle / runtime errors raised by the embedded trainer code. -/
inductive TrainerError where
  | scalerNotEnabled
deriving DecidableEq, Repr

/-- Embeds `Trainer._use_grad_scaling` (trainer.py lines 1064-1089):
returns False under DeepSpeed; otherwise uses scaling exactly when the
precision is AMP, and raises `RuntimeError` when scaling would be used
but the scaler is missing or not enabled. -/
def use_grad_scaling (deepspeedEnabled : Bool) (precision : Precision)
    (scaler : Option GradScalerState) : Except TrainerError Bool :=
  if deepspeedEnabled then .ok false
  else
    let use := decide (precision = Precision.AMP)
    if use && !(match scaler with
                | none => false
                | some s => s.enabled) then
      .error .scalerNotEnabled
    else
      .ok use

/-- An algorithm (extension), reduced to the static properties the trainer
reads: `backwards_create_graph` and `find_unused_parameters`
(trainer.py lines 716-722 read exactly these two flags). -/
structure Algorithm where
  backwards_create_graph : Bool
  find_unused_parameters : Bool
deriving DecidableEq, Repr

/-- Embeds the `Trainer.find_unused_parameters` property
(trainer.py lines 720-722): any registered algorithm sets the flag. -/
def find_unused_parameters (algorithms : List Algorithm) : Bool :=
  algorithms.any (fun a => a.find_unused_parameters)

/-- The ddp gradient sync strategies named in trainer.py
(`ddp.DDPSyncStrategy.SINGLE_AUTO_SYNC` and `FORCED_SYNC`; the enum lives
in `composer/utils/ddp.py`). -/
inductive DDPSyncStrategy where
  | SINGLE_AUTO_SYNC
  | FORCED_SYNC
deriving DecidableEq, Repr

/-- Modelled from the spec: the behaviour of each sync strategy
(`ddp.sync_context` is not under src/).  §4.4: the forced strategy
synchronizes on every microbatch; the default strategy defers the
all-reduce to the final microbatch only. -/
def syncsOnEveryMicrobatch : DDPSyncStrategy → Bool
  | .FORCED_SYNC => true
  | .SINGLE_AUTO_SYNC => false

/-- Embeds the sync-strategy selection in `Trainer.__init__`
(trainer.py lines 256-259): when no strategy is configured, choose
`SINGLE_AUTO_SYNC` unless `find_unused_parameters` holds, in which case
`FORCED_SYNC`; an explicitly configured strategy is used as given. -/
def select_ddp_sync_strategy (configured : Option DDPSyncStrategy)
    (algorithms : List Algorithm) : DDPSyncStrategy :=
  match configured with
  | none =>
      if !(find_unused_parameters algorithms) then .SINGLE_AUTO_SYNC
      else .FORCED_SYNC
  | some s => s

/-- Errors raised synchronously by `Trainer.__init__`. -/
inductive InitError where
  | multipleOptimizers
  | checkpointingWithDeepspeed
  | checkpointLoadWithDeepspeed
deriving DecidableEq, Repr

/-- The constructor arguments that feed the error checks and the decision
functions of `Trainer.__init__`. -/
structure InitArgs where
  numOptimizerHparams : Nat
  deepspeedEnabled : Bool
  checkpointIntervalUnitSet : Bool
  checkpointFilepathSet : Bool
  precision : Precision
  scalerHwEnabled : Bool
  ddpSyncStrategy : Option DDPSyncStrategy
  algorithms : List Algorithm
deriving DecidableEq, Repr

/-- The configuration a successful `Trainer.__init__` leaves behind
(the pieces the claims are about). -/
structure TrainerCfg where
  syncStrategy : DDPSyncStrategy
  numOptimizers : Nat
  scaler : GradScalerState
  precision : Precision
deriving DecidableEq, Repr

/-- Embeds the checked/deciding part of `Trainer.__init__`
(trainer.py lines 256-259, 271-300, 343-359), in source order:
select the sync strategy; default the optimizer hparams when empty and
raise `NotImplementedError` unless exactly one optimizer results
(lines 271-280); raise when checkpointing or checkpoint loading is
combined with DeepSpeed (lines 289-300); finally construct the grad
scaler unconditionally — `__init__` performs no precision/hardware
check (lines 343-359). -/
def trainer_init (a : InitArgs) : Except InitError TrainerCfg :=
  let strategy := select_ddp_sync_strategy a.ddpSyncStrategy a.algorithms
  let effectiveOptimizers :=
    if a.numOptimizerHparams = 0 then 1 else a.numOptimizerHparams
  if effectiveOptimizers ≠ 1 then .error .multipleOptimizers
  else if a.checkpointIntervalUnitSet && a.deepspeedEnabled then
    .error .checkpointingWithDeepspeed
  else if a.checkpointFilepathSet && a.deepspeedEnabled then
    .error .checkpointLoadWithDeepspeed
  else
    .ok { syncStrategy := strategy
          numOptimizers := effectiveOptimizers
          scaler := { enabled := a.scalerHwEnabled }
          precision := a.precision }

/-! ## The `fit` training loop (trainer.py lines 632-714, 809-826) -/

/-- Observable events of a `fit` run: lifecycle events emitted through the
engine, batches pulled from the iterator, batches actually trained
(forward/backward executed and `step` incremented), a caught
`BreakEpochException`, the one-shot restoration of the checkpoint rng
state, and the closing of the engine. -/
inductive TraceEv where
  | evEpochStart (epoch : Nat)
  | evPulled (epoch : Nat) (batch : Nat)
  | evTrainedOk (batch : Nat)
  | evBreakCaught (batch : Nat)
  | evRestoreRng
  | evEpochEnd (epoch : Nat)
  | evTrainingEnd
  | evEngineClose
deriving DecidableEq, Repr

/-- The trainer state observed by the `fit` loop: the progress counters of
`State`, the open/closed flag of the engine, the pending `checkpoint_loader`
(`some ()` models a non-None loader), and `_train_dataloader_iterator`,
modelled as the list of batches (identified by their position in the
data sequence of the epoch) the iterator has yet to yield. -/
structure TrainerSt where
  maxEpochs : Nat
  stepsPerEpoch : Nat
  dataloaderLen : Nat
  epoch : Nat
  step : Int
  engineClosed : Bool
  checkpointLoader : Option Unit
  iterator : Option (List Nat)
deriving DecidableEq, Repr

/-- Modelled from the spec: `State.batch_idx` (composer/core/state.py is
not under src/).  §3: "Invariant: `step == epoch * steps_per_epoch +
batch_idx`"; §8: "`state.batch_idx == state.step mod steps_per_epoch`":
the batch index within the current epoch is derived from the global step
as `step - epoch * steps_per_epoch`. -/
def batch_idx (t : TrainerSt) : Int :=
  t.step - (t.epoch : Int) * (t.stepsPerEpoch : Int)

/-- A fresh `iter(itertools.islice(state.train_dataloader,
state.steps_per_epoch))` (trainer.py lines 676-677 and 683-684): the
dataloader yields its `dataloaderLen` batches in order, truncated to
`steps_per_epoch`. -/
def fresh_epoch_iterator (t : TrainerSt) : List Nat :=
  (List.range t.dataloaderLen).take t.stepsPerEpoch

/-- Embeds the epoch-boundary block of `fit` (trainer.py lines 672-689):
at `batch_idx == 0` emit `EPOCH_START` and build a fresh bounded
iterator; otherwise, when a checkpoint loader is pending, assert the
iterator is unset (`none` models a failing `assert`), build a fresh
bounded iterator, advance it by `batch_idx` batches, restore the rng
state and discard the loader; otherwise do nothing. -/
def epoch_boundary (t : TrainerSt) : Option (TrainerSt × List TraceEv) :=
  if batch_idx t = 0 then
    some ({ t with iterator := some (fresh_epoch_iterator t) },
          [.evEpochStart t.epoch])
  else
    match t.checkpointLoader with
    | some _ =>
        match t.iterator with
        | some _ => none
        | none =>
            some ({ t with
                      iterator :=
                        some ((fresh_epoch_iterator t).drop (batch_idx t).toNat),
                      checkpointLoader := none },
                  [.evRestoreRng])
    | none => some (t, [])

/-- Embeds the end of `Trainer.__init__` (trainer.py lines 365-370): when
the batch index of the current epoch is zero and a checkpoint loader is
pending, restore the rng state at construction time and discard the
loader. -/
def init_restore_rng_state (t : TrainerSt) : TrainerSt × List TraceEv :=
  if batch_idx t = 0 ∧ t.checkpointLoader.isSome then
    ({ t with checkpointLoader := none }, [.evRestoreRng])
  else (t, [])

/-- Comparison `state.step < max_step`, where `max_step` may be infinite
(`float(inf)`, trainer.py line 664). -/
def step_lt_max (step : Int) : Option Int → Bool
  | none => true
  | some m => decide (step < m)

/-- Embeds the inner batch loop of `fit` (trainer.py lines 692-703).
`brk step` models an extension raising `BreakEpochException` while
`_train_batch` processes the batch at global step `step` (all lifecycle
events inside `_train_batch` precede the `state.step += 1` at line 911,
so a raising batch leaves `step` unchanged).  A completed `_train_batch`
increments `step` by one; a caught `BreakEpochException` advances `step`
by `steps_per_epoch - batch_idx` (line 702) and the loop continues; an
exhausted iterator breaks out.  Returns the new step, the remaining
iterator, and the trace. -/
def train_inner_loop (brk : Int → Bool) (maxStep : Option Int)
    (spe : Nat) (epoch : Nat) :
    List Nat → Int → Int × List Nat × List TraceEv
  | it, step =>
    if step_lt_max step maxStep then
      match it with
      | [] => (step, [], [])
      | b :: rest =>
          if brk step then
            let bi := step - (epoch : Int) * (spe : Int)
            let res := train_inner_loop brk maxStep spe epoch rest
              (step + ((spe : Int) - bi))
            (res.1, res.2.1, .evPulled epoch b :: .evBreakCaught b :: res.2.2)
          else
            let res := train_inner_loop brk maxStep spe epoch rest (step + 1)
            (res.1, res.2.1, .evPulled epoch b :: .evTrainedOk b :: res.2.2)
    else (step, it, [])

/-- Embeds `Trainer._epoch_end` (trainer.py lines 809-826): schedulers
step, `EPOCH_END` is emitted, `epoch` is incremented and the iterator is
cleared (evaluation and checkpointing have no effect on the loop state). -/
def epoch_end (t : TrainerSt) : TrainerSt × List TraceEv :=
  ({ t with epoch := t.epoch + 1, iterator := none }, [.evEpochEnd t.epoch])

/-- How an iteration of the `fit` while-loop ended. -/
inductive LoopStatus where
  | done
  | fuelOut
  | assertFailed
deriving DecidableEq, Repr

/-- Result of the fuelled `fit` loop. -/
structure LoopResult where
  t : TrainerSt
  trace : List TraceEv
  status : LoopStatus
deriving DecidableEq, Repr

/-- Embeds the outer `while state.epoch < max_epoch and state.step <
max_step` loop of `fit` (trainer.py lines 671-705), fuelled: each unit of
fuel is one iteration (one epoch-boundary visit).  The body runs the
epoch boundary, asserts the iterator is set (line 690), runs the inner
batch loop, and runs `_epoch_end` exactly when `batch_idx ==
steps_per_epoch` (line 704). -/
def fit_loop (brk : Int → Bool) (maxStep : Option Int) (maxEpoch : Nat) :
    Nat → TrainerSt → LoopResult
  | 0, t => ⟨t, [], .fuelOut⟩
  | fuel+1, t =>
    if t.epoch < maxEpoch ∧ step_lt_max t.step maxStep = true then
      match epoch_boundary t with
      | none => ⟨t, [], .assertFailed⟩
      | some (t1, tr1) =>
        match t1.iterator with
        | none => ⟨t1, tr1, .assertFailed⟩
        | some it =>
          let res := train_inner_loop brk maxStep t1.stepsPerEpoch t1.epoch
            it t1.step
          let t2 := { t1 with step := res.1, iterator := some res.2.1 }
          let te :=
            if batch_idx t2 = (t2.stepsPerEpoch : Int) then epoch_end t2
            else (t2, [])
          let r := fit_loop brk maxStep maxEpoch fuel te.1
          ⟨r.t, tr1 ++ res.2.2 ++ te.2 ++ r.trace, r.status⟩
    else ⟨t, [], .done⟩

/-- Errors raised by `fit` before the loop starts (trainer.py lines
650-663). -/
inductive FitError where
  | engineClosedError
  | bothNumBatchesAndNumEpochs
  | numEpochsMidEpoch
deriving DecidableEq, Repr

/-- Outcome of a `fit` call: normal return, an exception raised by the
argument checks (carrying the unmutated trainer state), a failed assert
(the bare `except:` closes the engine and re-raises, line 708-711), or
exhausted fuel. -/
inductive FitOutcome where
  | ok (t : TrainerSt)
  | raised (e : FitError) (t : TrainerSt)
  | assertFailed (t : TrainerSt)
  | fuelOut (t : TrainerSt)
deriving DecidableEq, Repr

/-- True exactly for a normal return. -/
def FitOutcome.isOk : FitOutcome → Bool
  | .ok _ => true
  | _ => false

/-- Embeds the tail of `Trainer.fit` after the loop (trainer.py lines
707-714): exhausted fuel is reported as is; a failed assert models the
bare `except:` clause, which closes the engine and re-raises; a normal
exit emits `TRAINING_END` and closes the engine exactly when
`state.epoch == state.max_epochs`. -/
def fit_finish (r : LoopResult) : FitOutcome × List TraceEv :=
  match r.status with
  | .fuelOut => (.fuelOut r.t, r.trace)
  | .assertFailed =>
      (.assertFailed { r.t with engineClosed := true },
       r.trace ++ [.evEngineClose])
  | .done =>
      if r.t.epoch = r.t.maxEpochs then
        (.ok { r.t with engineClosed := true },
         r.trace ++ [.evTrainingEnd, .evEngineClose])
      else (.ok r.t, r.trace ++ [.evTrainingEnd])

/-- Embeds `Trainer.fit` (trainer.py lines 632-714): the closed-engine
check, the two `ValueError` argument checks, the `max_step` / `max_epoch`
computation, the fuelled loop, and the post-loop handling
(`fit_finish`). -/
def fit (brk : Int → Bool) (fuel : Nat) (t : TrainerSt)
    (numBatches numEpochs : Option Nat) : FitOutcome × List TraceEv :=
  if t.engineClosed then (.raised .engineClosedError t, [])
  else if numBatches.isSome ∧ numEpochs.isSome then
    (.raised .bothNumBatchesAndNumEpochs t, [])
  else if batch_idx t ≠ 0 ∧ numEpochs.isSome then
    (.raised .numEpochsMidEpoch t, [])
  else
    let maxStep : Option Int := numBatches.map (fun nb => t.step + (nb : Int))
    let maxEpoch : Nat :=
      match numEpochs with
      | some ne => t.epoch + ne
      | none => t.maxEpochs
    fit_finish (fit_loop brk maxStep maxEpoch fuel t)

/-! ## `_train_batch_inner` (trainer.py lines 915-1020, non-DeepSpeed path) -/

/-- Observable events inside `_train_batch_inner`: the
`BEFORE_TRAIN_BATCH` event, a `zero_grad()` call on optimizer `k`, the
forward and backward pass of microbatch `i`, and the
`AFTER_TRAIN_BATCH` event. -/
inductive InnerEv where
  | evBeforeTrainBatch
  | evZeroGrad (k : Nat)
  | evForward (i : Nat)
  | evBackward (i : Nat)
  | evAfterTrainBatch
deriving DecidableEq, Repr

/-- The microbatch loop of `_train_batch_inner` (trainer.py lines
948-1001, non-DeepSpeed): for the `i`-th microbatch run forward, compute
`lossFn`, multiply the loss in place by `microbatch_size /
current_batch_size` and add it to the accumulated total (lines 976-979),
then run backward.  A microbatch is the list of its samples (sample
values in `ℚ`); its size is its length. -/
def train_microbatch_loop (lossFn : List ℚ → ℚ) (currentBatchSize : ℚ) :
    List (List ℚ) → Nat → ℚ → List InnerEv × ℚ
  | [], _, totalLoss => ([], totalLoss)
  | mb :: rest, i, totalLoss =>
      let scaledLoss := lossFn mb * ((mb.length : ℚ) / currentBatchSize)
      let res := train_microbatch_loop lossFn currentBatchSize rest (i + 1)
        (totalLoss + scaledLoss)
      (.evForward i :: .evBackward i :: res.1, res.2)

/-- Embeds `Trainer._train_batch_inner` on the non-DeepSpeed path
(trainer.py lines 915-1020, with `self.deepspeed_enabled` False):
emit `BEFORE_TRAIN_BATCH`; call `zero_grad()` on every optimizer (lines
940-942); initialize `total_loss` to zero and compute
`current_batch_size` as the sum of the microbatch sizes (lines 945-946);
run the microbatch loop; emit `AFTER_TRAIN_BATCH` and return the
accumulated total loss (gradient unscaling and clipping do not affect
the trace events modelled or the returned loss). -/
def train_batch_inner (numOptimizers : Nat) (lossFn : List ℚ → ℚ)
    (microbatches : List (List ℚ)) : List InnerEv × ℚ :=
  let zeroGradEvs := (List.range numOptimizers).map InnerEv.evZeroGrad
  let currentBatchSize : ℚ := ((microbatches.map List.length).sum : ℕ)
  let res := train_microbatch_loop lossFn currentBatchSize microbatches 0 0
  (InnerEv.evBeforeTrainBatch :: zeroGradEvs ++ res.1
     ++ [InnerEv.evAfterTrainBatch], res.2)

/-- A loss function that is the size-weighted mean over samples: the
words of the spec: "loss of processing the whole batch in one pass for a loss that
is a size-weighted mean over samples" (§4.3, §8 loss additivity).
Stated from the spec for comparison with the accumulated loss. -/
def sampleMeanLoss (samples : List ℚ) : ℚ :=
  samples.sum / (samples.length : ℚ)

/-! ## `Trainer.eval` (trainer.py lines 1022-1062) -/

/-- The ambient torch flags `eval` interacts with: the model
training/eval mode (`model.training`) and whether gradient recording is
enabled (toggled by `torch.no_grad()`). -/
structure TorchCtx where
  training : Bool
  gradEnabled : Bool
deriving DecidableEq, Repr

/-- Embeds `Trainer.eval` (trainer.py lines 1022-1062): remember
`model.training` (line 1033), switch the model to eval mode (line 1035),
run every evaluation forward pass inside `torch.no_grad()` (lines
1036-1059), then restore training mode exactly when the model was
training before (lines 1061-1062).  Returns the final context and, per
evaluation batch, the context in force at its `validate` forward call. -/
def eval_trainer (ctx : TorchCtx) (evalBatches : List Nat) :
    TorchCtx × List TorchCtx :=
  let restoreModelTrain := ctx.training
  let cEval := { ctx with training := false }
  let cNoGrad := { cEval with gradEnabled := false }
  let forwardCtxs := evalBatches.map (fun _ => cNoGrad)
  let cAfter := { cNoGrad with gradEnabled := ctx.gradEnabled }
  let cFinal :=
    if restoreModelTrain then { cAfter with training := true } else cAfter
  (cFinal, forwardCtxs)

/-! ## Theorems -/

/-- An event of `_train_batch_inner` that is a microbatch forward or
backward pass. -/
def InnerEv.isPass : InnerEv → Bool
  | .evForward _ => true
  | .evBackward _ => true
  | _ => false

/-- Number of rng-restoration events in a trace. -/
def countRestoreRng (tr : List TraceEv) : Nat :=
  tr.count TraceEv.evRestoreRng

/-- Construction arguments requesting auto-mixed precision on hardware
whose grad scaler reports itself disabled, with an otherwise default
single-optimizer, non-DeepSpeed configuration. -/
def ampUnsupportedArgs : InitArgs :=
  { numOptimizerHparams := 1
    deepspeedEnabled := false
    checkpointIntervalUnitSet := false
    checkpointFilepathSet := false
    precision := .AMP
    scalerHwEnabled := false
    ddpSyncStrategy := none
    algorithms := [] }

/-- C5 counterexample: the claim says an unsupported-scaler configuration
error is raised synchronously at construction, but `Trainer.__init__`
constructs the scaler unconditionally and succeeds even when auto-mixed
precision is requested on hardware whose scaler is disabled; the
`RuntimeError` is raised only by `_use_grad_scaling`. -/
theorem use_grad_scaling_not_checked_at_init :
    trainer_init ampUnsupportedArgs =
      .ok { syncStrategy := .SINGLE_AUTO_SYNC, numOptimizers := 1,
            scaler := { enabled := false }, precision := .AMP }
    ∧ use_grad_scaling false Precision.AMP (some { enabled := false }) =
        .error .scalerNotEnabled := by
  exact ⟨rfl, rfl⟩

/-- C5 (amended): the gradient-scaling decision is a pure function of the
precision mode: on the non-DeepSpeed path scaling is used iff precision
is AMP; for FP32 or FP16 it is a no-op pass-through whatever the scaler
state; and when AMP is requested with a missing or disabled scaler, the
`RuntimeError` is raised at the point `_use_grad_scaling` is evaluated
(during `_train_batch`), construction itself having succeeded. -/
theorem grad_scaling_iff_amp :
    (∀ p : Precision, use_grad_scaling false p (some { enabled := true }) =
        .ok (decide (p = Precision.AMP)))
    ∧ (∀ s, use_grad_scaling false Precision.FP32 s = .ok false)
    ∧ (∀ s, use_grad_scaling false Precision.FP16 s = .ok false)
    ∧ use_grad_scaling false Precision.AMP none = .error .scalerNotEnabled
    ∧ use_grad_scaling false Precision.AMP (some { enabled := false }) =
        .error .scalerNotEnabled
    ∧ (∃ cfg, trainer_init ampUnsupportedArgs = .ok cfg) := by
  refine ⟨fun p => ?_, fun s => ?_, fun s => ?_, rfl, rfl, ⟨_, rfl⟩⟩
  · cases p <;> rfl
  · cases s with
    | none => rfl
    | some sc => cases sc with | mk e => cases e <;> rfl
  · cases s with
    | none => rfl
    | some sc => cases sc with | mk e => cases e <;> rfl

/-- C6: with no explicitly configured sync strategy, the trainer selects
`SINGLE_AUTO_SYNC` (the deferred, final-microbatch-only strategy) by
default, and selects the forced per-microbatch strategy `FORCED_SYNC`
exactly when some registered algorithm reports
`find_unused_parameters`. -/
theorem default_sync_strategy_selection (algorithms : List Algorithm) :
    select_ddp_sync_strategy none algorithms =
      (if find_unused_parameters algorithms then DDPSyncStrategy.FORCED_SYNC
       else DDPSyncStrategy.SINGLE_AUTO_SYNC)
    ∧ (syncsOnEveryMicrobatch (select_ddp_sync_strategy none algorithms) = true ↔
        ∃ a ∈ algorithms, a.find_unused_parameters = true) := by
  have hfind : find_unused_parameters algorithms = true ↔
      ∃ a ∈ algorithms, a.find_unused_parameters = true := by
    unfold find_unused_parameters
    simp [List.any_eq_true]
  constructor
  · cases h : find_unused_parameters algorithms <;>
      simp [select_ddp_sync_strategy, h]
  · rw [← hfind]
    cases h : find_unused_parameters algorithms <;>
      simp [select_ddp_sync_strategy, h, syncsOnEveryMicrobatch]

/-- C7: after defaulting an empty optimizer-hparams list to the single
default optimizer, `Trainer.__init__` raises exactly when more than one
optimizer is supplied, and any successful construction has exactly one
optimizer. -/
theorem single_optimizer_enforced (a : InitArgs) :
    (trainer_init a = .error .multipleOptimizers ↔ 2 ≤ a.numOptimizerHparams)
    ∧ (∀ cfg, trainer_init a = .ok cfg → cfg.numOptimizers = 1) := by
  rcases a with ⟨n, ds, ciu, cfp, prec, hw, strat, algs⟩
  match n with
  | 0 =>
      cases ds <;> cases ciu <;> cases cfp <;> simp [trainer_init]
  | 1 =>
      cases ds <;> cases ciu <;> cases cfp <;> simp [trainer_init]
  | (k+2) =>
      have h2 : ¬(k + 2 = 0) := by omega
      have h1 : k + 2 ≠ 1 := by omega
      simp [trainer_init, h2, h1]

/-- C7 witness: supplying two optimizers makes construction fail with the
multiple-optimizers error, and a default (zero-supplied) construction
yields exactly one optimizer. -/
theorem single_optimizer_enforced_witness :
    trainer_init { ampUnsupportedArgs with numOptimizerHparams := 2 } =
      .error .multipleOptimizers
    ∧ ∀ cfg, trainer_init ampUnsupportedArgs = .ok cfg →
        cfg.numOptimizers = 1 := by
  constructor
  · exact (single_optimizer_enforced
      { ampUnsupportedArgs with numOptimizerHparams := 2 }).1.mpr (by decide)
  · exact (single_optimizer_enforced ampUnsupportedArgs).2

/-- The accumulated total of the microbatch loop is the sum of the
per-microbatch losses, each multiplied by `microbatch_size /
current_batch_size`. -/
lemma train_microbatch_loop_total (lossFn : List ℚ → ℚ) (B : ℚ) :
    ∀ (mbs : List (List ℚ)) (i : Nat) (acc : ℚ),
      (train_microbatch_loop lossFn B mbs i acc).2 =
        acc + (mbs.map (fun mb => lossFn mb * ((mb.length : ℚ) / B))).sum
  | [], _, acc => by simp [train_microbatch_loop]
  | mb :: rest, i, acc => by
      simp only [train_microbatch_loop, List.map_cons, List.sum_cons,
        train_microbatch_loop_total lossFn B rest (i + 1)]
      ring

/-- The total loss returned by the non-DeepSpeed `_train_batch_inner`, in
closed form. -/
lemma train_batch_inner_total (numOptimizers : Nat) (lossFn : List ℚ → ℚ)
    (mbs : List (List ℚ)) :
    (train_batch_inner numOptimizers lossFn mbs).2 =
      (mbs.map (fun mb =>
        lossFn mb * ((mb.length : ℚ) / (((mbs.map List.length).sum : ℕ) : ℚ)))).sum := by
  unfold train_batch_inner
  simp [train_microbatch_loop_total]

/-- The per-microbatch weights `microbatch_size / batch_size` sum to 1
when the batch is nonempty. -/
lemma microbatch_weights_sum_one (mbs : List (List ℚ))
    (hB : (mbs.map List.length).sum ≠ 0) :
    (mbs.map (fun mb =>
      (mb.length : ℚ) / (((mbs.map List.length).sum : ℕ) : ℚ))).sum = 1 := by
  have hBQ : (((mbs.map List.length).sum : ℕ) : ℚ) ≠ 0 := by
    exact_mod_cast hB
  have hsum : (mbs.map (fun mb => ((mb.length : ℚ)))).sum =
      (((mbs.map List.length).sum : ℕ) : ℚ) := by
    rw [Nat.cast_list_sum, List.map_map]
    rfl
  calc (mbs.map (fun mb =>
          (mb.length : ℚ) / (((mbs.map List.length).sum : ℕ) : ℚ))).sum
      = (mbs.map (fun mb =>
          (mb.length : ℚ) * (((mbs.map List.length).sum : ℕ) : ℚ)⁻¹)).sum := by
        simp [div_eq_mul_inv]
    _ = (mbs.map (fun mb => ((mb.length : ℚ)))).sum *
          (((mbs.map List.length).sum : ℕ) : ℚ)⁻¹ := by
        simpa using
          List.sum_map_mul_right mbs (fun mb => ((mb.length : ℚ))) _
    _ = 1 := by rw [hsum]; exact mul_inv_cancel₀ hBQ

/-- With a loss that is the mean over samples, the accumulated total of
`_train_batch_inner` equals the mean loss over the whole (flattened)
batch. -/
lemma train_batch_inner_meanLoss (numOptimizers : Nat)
    (mbs : List (List ℚ)) (hB : (mbs.map List.length).sum ≠ 0) :
    (train_batch_inner numOptimizers sampleMeanLoss mbs).2 =
      sampleMeanLoss mbs.flatten := by
  have hBQ : (((mbs.map List.length).sum : ℕ) : ℚ) ≠ 0 := by
    exact_mod_cast hB
  rw [train_batch_inner_total]
  have hpt : ∀ mb : List ℚ,
      sampleMeanLoss mb *
        ((mb.length : ℚ) / (((mbs.map List.length).sum : ℕ) : ℚ)) =
      mb.sum / (((mbs.map List.length).sum : ℕ) : ℚ) := by
    intro mb
    rcases mb with _ | ⟨x, xs⟩
    · simp [sampleMeanLoss]
    · have hl : ((x :: xs).length : ℚ) ≠ 0 := by
        have hpos : (0 : ℚ) < ((x :: xs).length : ℚ) := by
          exact_mod_cast Nat.succ_pos xs.length
        exact ne_of_gt hpos
      unfold sampleMeanLoss
      field_simp

  calc (mbs.map (fun mb =>
          sampleMeanLoss mb *
            ((mb.length : ℚ) / (((mbs.map List.length).sum : ℕ) : ℚ)))).sum
      = (mbs.map (fun mb =>
          mb.sum / (((mbs.map List.length).sum : ℕ) : ℚ))).sum := by
        rw [List.map_congr_left (fun mb _ => hpt mb)]
    _ = (mbs.map (fun mb =>
          mb.sum * (((mbs.map List.length).sum : ℕ) : ℚ)⁻¹)).sum := by
        simp [div_eq_mul_inv]
    _ = (mbs.map List.sum).sum * (((mbs.map List.length).sum : ℕ) : ℚ)⁻¹ := by
        simpa using List.sum_map_mul_right mbs List.sum _
    _ = sampleMeanLoss mbs.flatten := by
        unfold sampleMeanLoss
        rw [List.sum_flatten, List.length_flatten, div_eq_mul_inv]

/-- C2: on the non-DeepSpeed path, each microbatch loss is multiplied by
`microbatch_size / current_batch_size` before being accumulated, so the
returned total is the size-weighted combination of the microbatch losses
(weights summing to 1); and for a loss that is the size-weighted mean
over samples, the total equals both the mean loss of the whole flattened
batch and the total the same routine returns when the batch is processed
as one single microbatch. -/
theorem microbatch_loss_weighting (numOptimizers : Nat)
    (lossFn : List ℚ → ℚ) (microbatches : List (List ℚ))
    (hB : (microbatches.map List.length).sum ≠ 0) :
    (train_batch_inner numOptimizers lossFn microbatches).2 =
      (microbatches.map (fun mb =>
        lossFn mb *
          ((mb.length : ℚ) /
            (((microbatches.map List.length).sum : ℕ) : ℚ)))).sum
    ∧ (microbatches.map (fun mb =>
        (mb.length : ℚ) /
          (((microbatches.map List.length).sum : ℕ) : ℚ))).sum = 1
    ∧ (train_batch_inner numOptimizers sampleMeanLoss microbatches).2 =
        sampleMeanLoss microbatches.flatten
    ∧ (train_batch_inner numOptimizers sampleMeanLoss microbatches).2 =
        (train_batch_inner numOptimizers sampleMeanLoss
          [microbatches.flatten]).2 := by
  refine ⟨train_batch_inner_total numOptimizers lossFn microbatches,
    microbatch_weights_sum_one microbatches hB,
    train_batch_inner_meanLoss numOptimizers microbatches hB, ?_⟩
  have hB1 : (([microbatches.flatten].map List.length).sum) ≠ 0 := by
    simpa [List.length_flatten] using hB
  rw [train_batch_inner_meanLoss numOptimizers microbatches hB,
    train_batch_inner_meanLoss numOptimizers [microbatches.flatten] hB1]
  simp

/-- C2 witness: a concrete batch of sizes 2 and 1 satisfies the nonempty
hypothesis, and the accumulated loss equals the whole-batch mean loss. -/
theorem microbatch_loss_weighting_witness :
    (([[(1 : ℚ), 2], [3]].map List.length).sum ≠ 0)
    ∧ (train_batch_inner 1 sampleMeanLoss [[(1 : ℚ), 2], [3]]).2 =
        sampleMeanLoss ([[(1 : ℚ), 2], [3]] : List (List ℚ)).flatten :=
  ⟨by decide,
   (microbatch_loss_weighting 1 sampleMeanLoss [[(1 : ℚ), 2], [3]]
      (by decide)).2.2.1⟩

/-- C9: `eval` restores the training/eval mode of the model — the final mode
equals the mode before the call — and every evaluation forward pass runs
with gradients disabled. -/
theorem eval_restores_mode (ctx : TorchCtx) (evalBatches : List Nat) :
    (eval_trainer ctx evalBatches).1.training = ctx.training
    ∧ ∀ c ∈ (eval_trainer ctx evalBatches).2, c.gradEnabled = false := by
  unfold eval_trainer
  constructor
  · cases h : ctx.training <;> simp [h]
  · intro c hc
    simp only [List.mem_map] at hc
    obtain ⟨b, _, rfl⟩ := hc
    rfl

/-- C9 witness: a concrete `eval` call from training mode with gradients
enabled returns to training mode, and the forward-pass contexts all have
gradients disabled. -/
theorem eval_restores_mode_witness :
    (eval_trainer ⟨true, true⟩ [0, 1]).1.training = true
    ∧ ∀ c ∈ (eval_trainer ⟨true, true⟩ [0, 1]).2, c.gradEnabled = false :=
  eval_restores_mode ⟨true, true⟩ [0, 1]

/-- C3: calling `fit` on a trainer whose engine is already closed raises
the life-cycle `RuntimeError` before anything happens: the outcome
carries the input state unchanged and the trace is empty. -/
theorem fit_on_closed_engine (brk : Int → Bool) (fuel : Nat)
    (t : TrainerSt) (numBatches numEpochs : Option Nat)
    (h : t.engineClosed = true) :
    fit brk fuel t numBatches numEpochs =
      (.raised .engineClosedError t, []) := by
  simp [fit, h]

/-- A trainer whose engine has already closed. -/
def closedTrainer : TrainerSt :=
  { maxEpochs := 1, stepsPerEpoch := 2, dataloaderLen := 2, epoch := 0,
    step := 0, engineClosed := true, checkpointLoader := none,
    iterator := none }

/-- C3 witness: a concrete closed trainer satisfies the hypothesis, and
`fit` raises without mutating it. -/
theorem fit_on_closed_engine_witness :
    fit (fun _ => false) 3 closedTrainer none none =
      (.raised .engineClosedError closedTrainer, []) :=
  fit_on_closed_engine (fun _ => false) 3 closedTrainer none none rfl

/-- C8: with an open engine, `fit` raises `ValueError` when both
`num_batches` and `num_epochs` are supplied, and raises `ValueError`
when `num_epochs` is supplied mid-epoch; in both cases the outcome
carries the input state unchanged and the trace is empty (no batch was
processed). -/
theorem fit_argument_validation (brk : Int → Bool) (fuel : Nat)
    (t : TrainerSt) (hopen : t.engineClosed = false) :
    (∀ nb ne, fit brk fuel t (some nb) (some ne) =
      (.raised .bothNumBatchesAndNumEpochs t, []))
    ∧ (batch_idx t ≠ 0 → ∀ ne, fit brk fuel t none (some ne) =
      (.raised .numEpochsMidEpoch t, [])) := by
  constructor
  · intro nb ne
    simp [fit, hopen]
  · intro hmid ne
    simp [fit, hopen, hmid]

/-- A trainer stopped mid-epoch (`batch_idx = 1`) with an open engine. -/
def midEpochTrainer : TrainerSt :=
  { maxEpochs := 2, stepsPerEpoch := 2, dataloaderLen := 2, epoch := 0,
    step := 1, engineClosed := false, checkpointLoader := none,
    iterator := some [1] }

/-- C8 witness: concrete `fit` calls on an open, mid-epoch trainer raise
the two `ValueError`s without mutating the state. -/
theorem fit_argument_validation_witness :
    fit (fun _ => false) 3 midEpochTrainer (some 1) (some 1) =
      (.raised .bothNumBatchesAndNumEpochs midEpochTrainer, [])
    ∧ fit (fun _ => false) 3 midEpochTrainer none (some 1) =
      (.raised .numEpochsMidEpoch midEpochTrainer, []) :=
  ⟨(fit_argument_validation (fun _ => false) 3 midEpochTrainer rfl).1 1 1,
   (fit_argument_validation (fun _ => false) 3 midEpochTrainer rfl).2
     (by decide) 1⟩

/-- The inner batch loop never restores rng state. -/
lemma train_inner_loop_no_restore (brk : Int → Bool) (maxStep : Option Int)
    (spe epoch : Nat) (it : List Nat) :
    ∀ step : Int,
      countRestoreRng
        (train_inner_loop brk maxStep spe epoch it step).2.2 = 0 := by
  induction it with
  | nil =>
      intro step
      unfold train_inner_loop
      split <;> simp [countRestoreRng]
  | cons b rest ih =>
      intro step
      unfold train_inner_loop
      by_cases hlt : step_lt_max step maxStep = true
      · by_cases hbrk : brk step = true <;>
        · simp [hlt, hbrk, countRestoreRng, List.count_cons]
          exact ih _
      · simp [hlt, countRestoreRng]

/-- The epoch boundary emits a restore exactly by consuming the pending
loader: the restores emitted plus the loader still pending afterwards
are bounded by the loader pending before. -/
lemma epoch_boundary_restore (t t1 : TrainerSt) (tr1 : List TraceEv)
    (h : epoch_boundary t = some (t1, tr1)) :
    countRestoreRng tr1 +
        (if t1.checkpointLoader.isSome then 1 else 0) ≤
      (if t.checkpointLoader.isSome then 1 else 0) := by
  unfold epoch_boundary at h
  split at h
  · obtain ⟨rfl, rfl⟩ := Prod.mk.injEq .. ▸ (Option.some.injEq .. ▸ h)
    simp [countRestoreRng]
  · cases hl : t.checkpointLoader with
    | some u =>
        rw [hl] at h
        cases hit : t.iterator with
        | some it => rw [hit] at h; exact absurd h (by simp)
        | none =>
            rw [hit] at h
            obtain ⟨rfl, rfl⟩ := Prod.mk.injEq .. ▸ (Option.some.injEq .. ▸ h)
            simp [countRestoreRng, hl]
    | none =>
        rw [hl] at h
        obtain ⟨rfl, rfl⟩ := Prod.mk.injEq .. ▸ (Option.some.injEq .. ▸ h)
        simp [countRestoreRng, hl]

/-- An epoch-end event never counts as a restore event. -/
lemma beq_epochEnd_restore (e : Nat) :
    (TraceEv.evEpochEnd e == TraceEv.evRestoreRng) = false := rfl

/-- Restore counting distributes over trace concatenation. -/
lemma countRestoreRng_append (l1 l2 : List TraceEv) :
    countRestoreRng (l1 ++ l2) = countRestoreRng l1 + countRestoreRng l2 :=
  List.count_append ..

/-- Across any run of the `fit` loop, rng restoration happens at most
once when a loader is pending and never otherwise: the restoring step
discards the loader, and nothing inside the loop creates one. -/
lemma fit_loop_restore_bound (brk : Int → Bool) (maxStep : Option Int)
    (maxEpoch : Nat) :
    ∀ (fuel : Nat) (t : TrainerSt),
      countRestoreRng (fit_loop brk maxStep maxEpoch fuel t).trace ≤
        (if t.checkpointLoader.isSome then 1 else 0) := by
  intro fuel
  induction fuel with
  | zero =>
      intro t
      simp [fit_loop, countRestoreRng]
  | succ n ih =>
      intro t
      unfold fit_loop
      by_cases hcond : (t.epoch < maxEpoch ∧ step_lt_max t.step maxStep = true)
      · rw [if_pos hcond]
        split
        · simp [countRestoreRng]
        · rename_i t1 tr1 heq
          have hbd := epoch_boundary_restore t t1 tr1 heq
          split
          · exact le_trans (Nat.le_add_right _ _) hbd
          · rename_i it hit
            simp only [countRestoreRng_append,
              train_inner_loop_no_restore brk maxStep t1.stepsPerEpoch
                t1.epoch it]
            split
            · rename_i hfull
              have hih := ih (epoch_end
                { t1 with
                    step := (train_inner_loop brk maxStep t1.stepsPerEpoch
                      t1.epoch it t1.step).1,
                    iterator := some (train_inner_loop brk maxStep
                      t1.stepsPerEpoch t1.epoch it t1.step).2.1 }).1
              simp only [epoch_end] at hih
              simp only [epoch_end, countRestoreRng, List.count_cons,
                List.count_nil, beq_epochEnd_restore, Bool.false_eq_true,
                if_false]
              simp only [countRestoreRng] at hbd hih ⊢
              omega
            · rename_i hpart
              have hih := ih
                { t1 with
                    step := (train_inner_loop brk maxStep t1.stepsPerEpoch
                      t1.epoch it t1.step).1,
                    iterator := some (train_inner_loop brk maxStep
                      t1.stepsPerEpoch t1.epoch it t1.step).2.1 }
              simp only [countRestoreRng, List.count_nil] at hih hbd ⊢
              omega
      · rw [if_neg hcond]
        simp [countRestoreRng]

/-- The restore bound extends to a full `fit` call: the events `fit`
itself appends to the loop trace are never restore events. -/
lemma fit_finish_restore (r : LoopResult) :
    countRestoreRng (fit_finish r).2 = countRestoreRng r.trace := by
  unfold fit_finish
  split
  · rfl
  · simp [countRestoreRng_append, countRestoreRng]
  · split <;> simp [countRestoreRng_append, countRestoreRng]

lemma fit_restore_bound (brk : Int → Bool) (fuel : Nat) (t : TrainerSt)
    (numBatches numEpochs : Option Nat) :
    countRestoreRng (fit brk fuel t numBatches numEpochs).2 ≤
      (if t.checkpointLoader.isSome then 1 else 0) := by
  unfold fit
  split
  · simp [countRestoreRng]
  split
  · simp [countRestoreRng]
  split
  · simp [countRestoreRng]
  rw [fit_finish_restore]
  exact fit_loop_restore_bound brk _ _ fuel t

/-- C4: when resuming mid-epoch (`batch_idx ≠ 0` with a pending loader
and no live iterator), the epoch boundary builds a fresh iterator
bounded to `steps_per_epoch` batches, advances it by exactly
`batch_idx`, restores the rng state and discards the loader; when
`batch_idx = 0`, the restoration instead happens once at construction;
and in any `fit` run the restoration happens at most once — and never
again once the loader is gone. -/
theorem mid_epoch_resume (t : TrainerSt)
    (h : t.checkpointLoader = some ()) :
    (batch_idx t ≠ 0 → t.iterator = none →
      epoch_boundary t = some
        ({ t with
             iterator := some ((fresh_epoch_iterator t).drop
               (batch_idx t).toNat),
             checkpointLoader := none },
         [.evRestoreRng]))
    ∧ (batch_idx t = 0 →
      init_restore_rng_state t =
        ({ t with checkpointLoader := none }, [.evRestoreRng]))
    ∧ (∀ brk fuel numBatches numEpochs,
        countRestoreRng (fit brk fuel t numBatches numEpochs).2 ≤ 1)
    ∧ (∀ brk maxStep maxEpoch fuel t2, t2.checkpointLoader = none →
        countRestoreRng
          (fit_loop brk maxStep maxEpoch fuel t2).trace = 0) := by
  refine ⟨?_, ?_, ?_, ?_⟩
  · intro hmid hit
    unfold epoch_boundary
    rw [if_neg hmid, h, hit]
  · intro h0
    unfold init_restore_rng_state
    rw [if_pos ⟨h0, by simp [h]⟩]
  · intro brk fuel numBatches numEpochs
    have hb := fit_restore_bound brk fuel t numBatches numEpochs
    simpa [h] using hb
  · intro brk maxStep maxEpoch fuel t2 h2
    have hb := fit_loop_restore_bound brk maxStep maxEpoch fuel t2
    simpa [h2] using hb

/-- A trainer about to resume mid-epoch: `batch_idx = 2` of 3 with a
pending checkpoint loader and no live iterator. -/
def resumeTrainer : TrainerSt :=
  { maxEpochs := 2, stepsPerEpoch := 3, dataloaderLen := 3, epoch := 0,
    step := 2, engineClosed := false, checkpointLoader := some (),
    iterator := none }

/-- C4 witness: the concrete mid-epoch resume restores once, leaves the
iterator advanced past the first `batch_idx = 2` batches, discards the
loader, and a full `fit` run restores at most once. -/
theorem mid_epoch_resume_witness :
    epoch_boundary resumeTrainer =
      some ({ resumeTrainer with
                iterator := some [2],
                checkpointLoader := none },
            [.evRestoreRng])
    ∧ countRestoreRng
        (fit (fun _ => false) 4 resumeTrainer none none).2 ≤ 1 := by
  constructor
  · have hb := (mid_epoch_resume resumeTrainer rfl).1 (by decide) rfl
    rw [hb]
    rfl
  · exact (mid_epoch_resume resumeTrainer rfl).2.2.1 (fun _ => false) 4
      none none

/-- Extension behaviour for the epoch-skip scenario: raise
`BreakEpochException` while processing the batch at global step 1. -/
def breakAtStepOne : Int → Bool := fun s => decide (s = 1)

/-- Start state of the epoch-skip scenario: one epoch of three batches,
fresh open trainer. -/
def skipScenarioStart : TrainerSt :=
  { maxEpochs := 1, stepsPerEpoch := 3, dataloaderLen := 3, epoch := 0,
    step := 0, engineClosed := false, checkpointLoader := none,
    iterator := none }

/-- The stationary state the epoch-skip scenario reaches: `step = 4`
exceeds `steps_per_epoch = 3`, the iterator is exhausted, and the epoch
never ends, so the loop spins without progress. -/
def skipScenarioStuck : TrainerSt :=
  { skipScenarioStart with step := 4, iterator := some [] }

/-- Once the stuck state is reached, every further loop iteration leaves
it unchanged: `batch_idx = 4` is neither `0` nor `steps_per_epoch`, so
neither a new iterator nor `_epoch_end` is ever produced. -/
lemma fit_loop_skip_stuck : ∀ fuel : Nat,
    fit_loop breakAtStepOne none 1 fuel skipScenarioStuck =
      ⟨skipScenarioStuck, [], .fuelOut⟩
  | 0 => rfl
  | (n+1) => fit_loop_skip_stuck n

/-- The first loop iteration of the scenario processes the whole epoch
(including the batches after the caught signal) and lands in the stuck
state. -/
lemma fit_loop_skip_step (n : Nat) :
    fit_loop breakAtStepOne none 1 (n + 1) skipScenarioStart =
      ⟨skipScenarioStuck,
       [.evEpochStart 0, .evPulled 0 0, .evTrainedOk 0, .evPulled 0 1,
        .evBreakCaught 1, .evPulled 0 2, .evTrainedOk 2],
       .fuelOut⟩ := by
  have h1 : fit_loop breakAtStepOne none 1 (n + 1) skipScenarioStart =
      ⟨(fit_loop breakAtStepOne none 1 n skipScenarioStuck).t,
       [.evEpochStart 0, .evPulled 0 0, .evTrainedOk 0, .evPulled 0 1,
        .evBreakCaught 1, .evPulled 0 2, .evTrainedOk 2] ++
         (fit_loop breakAtStepOne none 1 n skipScenarioStuck).trace,
       (fit_loop breakAtStepOne none 1 n skipScenarioStuck).status⟩ := rfl
  rw [h1, fit_loop_skip_stuck n]
  rfl

/-- C1: in the code as written the epoch-skip signal does not abort the
remaining batches.  With `steps_per_epoch = 3` and the signal raised
while processing the batch at step 1, `step` is advanced by the
remaining count (from 1 to 3, a jump of 2) as claimed, but the loop then
pulls and trains the remaining batch 2 of the same epoch, `batch_idx`
overshoots `steps_per_epoch` (final step 4), `_epoch_end` never runs,
and `fit` never returns normally for any loop fuel.  The log message of
the code itself ("Skipping the rest of Epoch") documents the intended skip. -/
theorem break_epoch_trains_remaining_batches :
    (fit breakAtStepOne 2 skipScenarioStart none none).2 =
      [.evEpochStart 0, .evPulled 0 0, .evTrainedOk 0, .evPulled 0 1,
       .evBreakCaught 1, .evPulled 0 2, .evTrainedOk 2]
    ∧ (fit breakAtStepOne 2 skipScenarioStart none none).1 =
        .fuelOut skipScenarioStuck
    ∧ batch_idx skipScenarioStuck = 4
    ∧ (∀ fuel,
        (fit breakAtStepOne fuel skipScenarioStart none none).1.isOk =
          false) := by
  refine ⟨by decide, by decide, by decide, ?_⟩
  intro fuel
  cases fuel with
  | zero => decide
  | succ n =>
      have hfit : fit breakAtStepOne (n + 1) skipScenarioStart none none =
          fit_finish (fit_loop breakAtStepOne none 1 (n + 1)
            skipScenarioStart) := rfl
      rw [hfit, fit_loop_skip_step n]
      decide

/-- C10: every invocation of the non-DeepSpeed `_train_batch_inner`
produces a trace that splits into a pass-free part containing a
`zero_grad` call for every optimizer, followed by the rest: every
gradients of every optimizer are cleared before any microbatch forward or
backward pass. -/
theorem zero_grad_before_any_pass (numOptimizers : Nat)
    (lossFn : List ℚ → ℚ) (microbatches : List (List ℚ)) :
    ∃ pre post,
      (train_batch_inner numOptimizers lossFn microbatches).1 = pre ++ post
      ∧ (∀ k, k < numOptimizers → InnerEv.evZeroGrad k ∈ pre)
      ∧ (∀ e ∈ pre, e.isPass = false) := by
  refine ⟨InnerEv.evBeforeTrainBatch ::
      (List.range numOptimizers).map InnerEv.evZeroGrad,
    (train_microbatch_loop lossFn
        (((microbatches.map List.length).sum : ℕ) : ℚ) microbatches 0 0).1
      ++ [InnerEv.evAfterTrainBatch], ?_, ?_, ?_⟩
  · simp [train_batch_inner]
  · intro k hk
    exact List.mem_cons_of_mem _
      (List.mem_map.mpr ⟨k, List.mem_range.mpr hk, rfl⟩)
  · intro e he
    rcases List.mem_cons.mp he with rfl | hmap
    · rfl
    · obtain ⟨k, _, rfl⟩ := List.mem_map.mp hmap
      rfl

/-- C10 witness: in a concrete invocation with one optimizer, the
`zero_grad` call is present and precedes every pass event. -/
theorem zero_grad_before_any_pass_witness :
    InnerEv.evZeroGrad 0 ∈ (train_batch_inner 1 sampleMeanLoss [[1]]).1 := by
  obtain ⟨pre, post, heq, hmem, _⟩ :=
    zero_grad_before_any_pass 1 sampleMeanLoss [[1]]
  rw [heq]
  exact List.mem_append_left _ (hmem 0 (by decide))

end Composer
